import Mathlib

/-!
Verification of the issue-tree / cache-synchronization core of the
`github-issues` VS Code extension (`src/GitHubIssue.ts`,
`src/GitHubIssueService.ts`, `src/extension.ts`).

The development shallowly embeds:

* the `GitHubIssue` tree-node class (checklist parsing, progress
  aggregation, checkbox toggling) as the nested inductive `GH.GHNode`;
* the `GitHubIssueService` cache / refresh coordinator (cache freshness
  decisions, fetch-and-cache, fallback on failure, `onDataUpdated`
  event firing) as pure functions over an explicit cache state, with
  the remote API modelled as data (`GH.RemoteRepo`) or as an `Except`
  value when a call may throw;
* the `handleCheckboxChange` write-back path of the tree provider.

JavaScript numbers used for percentages are modelled as `ℚ` (all the
arithmetic involved here is exact in binary floating point for the
concrete cases considered, and the formulas are identical).  Timestamps
(`Date.now()` milliseconds) are modelled as `ℕ`.
-/

namespace GH

/-- Kind of tree node: the `type` constructor argument of `GitHubIssue`
(`'issue' | 'pullRequest' | 'progressBar'`). -/
inductive NodeType where
  | issue
  | pullRequest
  | progressBar
deriving DecidableEq

/-- Issue state strings `'open'` / `'closed'` of the GitHub records. -/
inductive IssueState where
  | opened
  | closed
deriving DecidableEq

/-- Scalar fields of a `GitHubIssue` tree node.  `number`, `title`,
`body` and `state` are the fields of the wrapped `issue` record that the
core reads (`number` is a string since sub-items get composite numbers
such as `"12.3"`; the progress-bar pseudo record has no `state`/`title`,
modelled as `none` / `""`).  `label` is the TreeItem label constructor
argument.  `progress` is the class field `progress`, `hasProgressBar`
models `this.progressBar !== undefined`.  UI-only fields (tooltip, icon,
collapsible state, checkbox UI state, SVG string) are not modelled. -/
structure NodeData where
  label : String
  number : String
  title : String
  body : String
  state : Option IssueState
  ntype : NodeType
  isCheckbox : Bool
  checked : Bool
  progress : ℚ
  hasProgressBar : Bool
deriving DecidableEq

/-- A `GitHubIssue` tree node: scalar data plus the ordered `children`
list. -/
inductive GHNode where
  | node (data : NodeData) (children : List GHNode) : GHNode

/-- Scalar data of a node. -/
def GHNode.data : GHNode → NodeData
  | .node d _ => d

/-- Children list of a node. -/
def GHNode.children : GHNode → List GHNode
  | .node _ c => c

/-- Characters of the ECMAScript `\s` class matched by the whitespace
groups of the checkbox regex `/^(\s*)-\s*\[([ x])\]\s*(.+)$/gm`.  In
JavaScript `\s` includes the line terminators, so these groups can span
line boundaries.  (Exotic Unicode spaces such as NBSP are not
modelled.) -/
def isJsSpace (c : Char) : Bool :=
  c = ' ' || c = '\t' || c = '\n' || c = '\r' || c = '\x0b' || c = '\x0c'

/-- ECMAScript LineTerminator characters: `.` never matches them, and
multiline `^`/`$` anchor around them.  (The Unicode terminators U+2028
and U+2029 are not modelled.) -/
def isLineTerminator (c : Char) : Bool :=
  c = '\n' || c = '\r'

/-- The last character of a string that is not a line terminator,
together with the suffix after it.  This realizes the one backtracking
step of the greedy `\s*` before `(.+)$`: when everything after `\]` is
whitespace, the engine gives characters back until `(.+)` can match,
which first succeeds at the last non-terminator character (everything
after it is a terminator), so `(.+)` captures exactly that character. -/
def lastNonTerminatorSplit : List Char → Option (Char × List Char)
  | [] => none
  | c :: cs =>
      match lastNonTerminatorSplit cs with
      | some r => some r
      | none => if isLineTerminator c then none else some (c, cs)

/-- One attempt of `/^(\s*)-\s*\[([ x])\]\s*(.+)$/` at a position where
multiline `^` holds, on the remaining input `s`: returns the captures
`(checked, text)` and the input remaining after the match end.  The
greedy `\s*` runs before `-` and before `[` need no backtracking (a
shorter run would leave a whitespace character where the literal is
required), so they are maximal-whitespace skips — across newlines,
since `\s` matches them.  For `\s*(.+)$`: if a non-whitespace character
follows, the first one starts the text and `(.+)` greedily captures the
maximal run of non-terminator characters, after which `$` holds (this
is how a match whose marker line ends after `\]` takes its text from a
later line); if only whitespace remains, the backtracking case of
`lastNonTerminatorSplit` applies. -/
def tryMatch (s : List Char) : Option ((Bool × String) × List Char) :=
  match s.dropWhile isJsSpace with
  | '-' :: r1 =>
    match r1.dropWhile isJsSpace with
    | '[' :: m :: ']' :: r2 =>
      if m = ' ' || m = 'x' then
        match r2.dropWhile isJsSpace with
        | [] =>
            match lastNonTerminatorSplit r2 with
            | some (c, rest) => some ((m = 'x', String.mk [c]), rest)
            | none => none
        | c :: cs =>
            some ((m = 'x', String.mk ((c :: cs).takeWhile (fun d => !isLineTerminator d))),
              (c :: cs).dropWhile (fun d => !isLineTerminator d))
      else none
    | _ => none
  | _ => none

/-- Position of the next multiline `^` anchor strictly after the
current one: just past the next line terminator (also between the `\r`
and `\n` of a CRLF pair, as in ECMAScript). -/
def findNextLineStart (s : List Char) : Option (List Char) :=
  match s.dropWhile (fun c => !isLineTerminator c) with
  | [] => none
  | _ :: rest => some rest

/-- The `while ((match = checkboxRegex.exec(this.issue.body)))` loop:
the pattern is attempted at every `^` position in order (start of
input, then after each line terminator); a successful match emits its
captures and the scan resumes at the first `^` position after the match
end (matches never overlap, `lastIndex` advances to the match end,
which sits at a line terminator or at the end of input); a failed
attempt consumes nothing and the scan moves to the next `^` position.
The fuel argument bounds the iteration count; `input.length + 1` always
suffices because every iteration consumes at least one character, just
as `exec` always advances. -/
def scanCheckboxes : Nat → List Char → List (Bool × String)
  | 0, _ => []
  | fuel + 1, s =>
      match tryMatch s with
      | some (tup, rest) => tup :: scanCheckboxes fuel (rest.drop 1)
      | none =>
          match findNextLineStart s with
          | some s1 => scanCheckboxes fuel s1
          | none => []

/-- The `parseCheckboxes` scan: the ordered `(checked, text)` capture
pairs of the global multiline regex over the whole body.  Because the
`\s` groups match newlines, a match may span lines and take its text
from a later line than its `- [ ]` marker; the captured text itself
never contains a line terminator (proved below). -/
def parseCheckboxes (body : String) : List (Bool × String) :=
  scanCheckboxes (body.data.length + 1) body.data

/-- Spec-side definition, following the claim's wording and spec 4.1
only: intra-line whitespace of a single checklist line. -/
def isSpaceChar (c : Char) : Bool :=
  c = ' ' || c = '\t' || c = '\r' || c = '\x0b' || c = '\x0c'

/-- Splits a character stream at `'\n'`; accumulator holds the current
line reversed. -/
def splitLinesAux : List Char → List Char → List (List Char)
  | [], acc => [acc.reverse]
  | c :: cs, acc =>
      if c = '\n' then acc.reverse :: splitLinesAux cs []
      else splitLinesAux cs (c :: acc)

/-- Spec-side definition, following the claim's wording: the body
decomposed into its lines.  Used to state what the claim asserts about
"lines matching the checklist pattern"; the source regex is modelled by
`scanCheckboxes` above, which is not per-line. -/
def specBodyLines (body : String) : List (List Char) :=
  splitLinesAux body.data []

/-- Spec-side definition, following the claim's wording: a single line
matches the checklist pattern when it consists of optional leading
whitespace, a `-` list marker, optional whitespace, a `[ ]` or `[x]`
checkbox (case-sensitive on `x`), then free text to the end of that
line (at least one character, whitespace skipped greedily with the
single-character backtracking step).  Compared with `scanCheckboxes`
over the source regex in the C4 counterexample. -/
def specChecklistLine : List Char → Option (Bool × String)
  | l =>
    match List.dropWhile isSpaceChar l with
    | '-' :: rest =>
      match List.dropWhile isSpaceChar rest with
      | '[' :: m :: ']' :: rest2 =>
        if m = ' ' || m = 'x' then
          match rest2 with
          | [] => none
          | _ :: _ =>
            let t := List.dropWhile isSpaceChar rest2
            match t with
            | [] =>
              match rest2.getLast? with
              | some c => some (m = 'x', String.mk [c])
              | none => none
            | _ :: _ => some (m = 'x', String.mk t)
        else none
      | _ => none
    | _ => none

/-- Sub-item child constructed for the `index`-th (0-based) checklist
tuple: the loop body of `parseCheckboxes` in the source builds a child
`GitHubIssue` whose record is the parent record with
`title = text`, `body = ''`, `number = parentNumber + "." + (index+1)`,
`state = checked ? 'closed' : 'open'`, and flags
`isCheckbox = true`, `checked` copied.  Its body is empty, hence the
child constructor synthesizes no grandchildren
(`parseCheckboxes "" = []`, proved below) and computes no progress. -/
def mkSubItemNode (parentNumber : String) (index : Nat) (ck : Bool) (text : String) : GHNode :=
  GHNode.node
    { label := text
      number := parentNumber ++ "." ++ toString (index + 1)
      title := text
      body := ""
      state := some (if ck then IssueState.closed else IssueState.opened)
      ntype := NodeType.issue
      isCheckbox := true
      checked := ck
      progress := 0
      hasProgressBar := false }
    []

/-- The child-building `while` loop of `parseCheckboxes`, carrying the
running `index`. -/
def buildSubItems (parentNumber : String) (index : Nat) : List (Bool × String) → List GHNode
  | [] => []
  | (ck, t) :: rest =>
      mkSubItemNode parentNumber index ck t :: buildSubItems parentNumber (index + 1) rest

/-- The synthesized progress-bar child created in `updateProgressBar`:
label `'Progress'`, record `{ number: parentNumber + ".progress" }`,
type `'progressBar'`, no children. -/
def mkProgressBarNode (parentNumber : String) : GHNode :=
  GHNode.node
    { label := "Progress"
      number := parentNumber ++ ".progress"
      title := ""
      body := ""
      state := none
      ntype := NodeType.progressBar
      isCheckbox := false
      checked := false
      progress := 0
      hasProgressBar := false }
    []

/-- The percentage computed by `calculateProgress`:
`totalCheckboxes = this.children.length`,
`checkedCheckboxes = this.children.filter(c => c.checked).length`,
`progress = total > 0 ? (checked / total) * 100 : 0`.  Note that the
source counts every element of `children`. -/
def childProgress (children : List GHNode) : ℚ :=
  let totalCheckboxes := children.length
  let checkedCheckboxes := (children.filter (fun c => c.data.checked)).length
  if 0 < totalCheckboxes then
    ((checkedCheckboxes : ℚ) / (totalCheckboxes : ℚ)) * 100
  else 0

/-- The assignment `this.progressBar.progress = this.progress`: the
stored `progressBar` reference is the unique progress-bar node in
`children` (it is unshifted to the front on creation and never moved),
so the update rewrites the progress field of the first node of type
`progressBar`. -/
def setProgressBarProgress (p : ℚ) : List GHNode → List GHNode
  | [] => []
  | c :: cs =>
      if c.data.ntype = NodeType.progressBar then
        GHNode.node { c.data with progress := p } c.children :: cs
      else c :: setProgressBarProgress p cs

/-- The `updateProgressBar` method: if no progress bar exists yet,
create one and `unshift` it into `children`; then propagate
`this.progress` into the progress-bar node.  (The SVG string and
tooltip it also stores are display-only and not modelled.) -/
def updateProgressBar (n : GHNode) : GHNode :=
  let n1 :=
    if n.data.hasProgressBar then n
    else
      GHNode.node { n.data with hasProgressBar := true }
        (mkProgressBarNode n.data.number :: n.children)
  GHNode.node n1.data (setProgressBarProgress n1.data.progress n1.children)

/-- The `calculateProgress` method: recompute `this.progress` from the
current `children`, then run `updateProgressBar`. -/
def calculateProgress (n : GHNode) : GHNode :=
  updateProgressBar (GHNode.node { n.data with progress := childProgress n.children } n.children)

/-- The `GitHubIssue` constructor for non-`progressBar` nodes as invoked
by the service layer (with `isCheckbox = false`, `checked = false`):
normalizes the body to a string, parses checklist children, and, if any
child was produced, immediately runs `calculateProgress`.  UI-only
constructor steps (tooltip, command, icon, collapsible state) are not
modelled. -/
def mkGHNode (label number title body : String) (st : Option IssueState) (nt : NodeType) : GHNode :=
  let subs := buildSubItems number 0 (parseCheckboxes body)
  let n0 := GHNode.node
    { label := label
      number := number
      title := title
      body := body
      state := st
      ntype := nt
      isCheckbox := false
      checked := false
      progress := 0
      hasProgressBar := false }
    subs
  if 0 < subs.length then calculateProgress n0 else n0

/-- The `toggleCheckbox` method, acting on the node's own scalar state:
when `isCheckbox`, flip `checked`; the returned flag records whether the
`if (this.parent) this.parent.calculateProgress()` recompute request is
reached (it is exactly the `isCheckbox` branch). -/
def toggleCheckbox (d : NodeData) : NodeData × Bool :=
  if d.isCheckbox then ({ d with checked := !d.checked }, true) else (d, false)

/-- Toggling the `i`-th child of `parent` (the parent back-reference of
the source is represented by performing the mutation at the parent):
the child flips via `toggleCheckbox` and, when the recompute request was
made, the parent recomputes its progress over the updated children. -/
def toggleChildAt (parent : GHNode) (i : Nat) : GHNode :=
  match parent.children[i]? with
  | none => parent
  | some c =>
      let r := toggleCheckbox c.data
      let parent1 := GHNode.node parent.data (parent.children.set i (GHNode.node r.1 c.children))
      if r.2 then calculateProgress parent1 else parent1

/-- Fields of a raw GitHub item that `GitHubIssueService` inspects:
`pull_request` records presence of the discriminating `pull_request`
field, `state` is the item's state.  All other record fields are
passthrough and irrelevant to the service logic. -/
structure Item where
  number : Nat
  pull_request : Bool
  state : IssueState
deriving DecidableEq

/-- The `CachedIssues` cache entry persisted in `workspaceState`. -/
structure CachedIssues where
  timestamp : Nat
  issues : List Item
  pullRequests : List Item
deriving DecidableEq

/-- The remote repository as seen through the GitHub list API: its full
collections of open and of closed items, in API order. -/
structure RemoteRepo where
  openItems : List Item
  closedItems : List Item
deriving DecidableEq

/-- Log lines written to the output channel by the service (message
texts abbreviated to tags). -/
inductive LogMsg where
  | fetchedAndCached
  | errorFetching
  | usingFallback
  | usingCache
  | startingBackgroundRefresh
deriving DecidableEq

/-- Result of one run of a fetch/refresh operation: the value returned
to the caller, the cache state afterwards, the payloads fired on the
`onDataUpdated` event emitter (in order), and the log lines written. -/
structure FetchOutcome where
  result : List Item × List Item
  cacheAfter : Option CachedIssues
  events : List (List Item × List Item)
  logs : List LogMsg
deriving DecidableEq

/-- One `octokit.issues.listForRepo` call with a `state` filter and a
`per_page` size: returns the first page, i.e. at most `perPage` items
of the requested state.  The source performs no pagination beyond this
single call. -/
def listForRepo (r : RemoteRepo) (st : IssueState) (perPage : Nat) : List Item :=
  match st with
  | IssueState.opened => r.openItems.take perPage
  | IssueState.closed => r.closedItems.take perPage

/-- The `fetchItems` helper: a single `listForRepo` call with
`per_page: 100`. -/
def fetchItems (r : RemoteRepo) (st : IssueState) : List Item :=
  listForRepo r st 100

/-- The `getFallbackItems` helper: the cached entry if present, else an
empty result. -/
def getFallbackItems (cache : Option CachedIssues) : List Item × List Item :=
  match cache with
  | some cd => (cd.issues, cd.pullRequests)
  | none => ([], [])

/-- Log lines of `getFallbackItems`. -/
def fallbackLogs : Option CachedIssues → List LogMsg
  | some _ => [LogMsg.usingFallback]
  | none => []

/-- The `fetchAndCacheIssues` method.  `remote` abstracts the `try`
block's data sources (`getGitHubRepoInfo` and the two `fetchItems`
calls): `Except.ok r` when they succeed against repository `r`, and
`Except.error` when any of them throws.  On success the open and closed
first pages are concatenated, partitioned by the `pull_request` field,
written to the cache with `timestamp = now`, fired on `onDataUpdated`,
and returned.  On failure the error is caught: it is logged
(`handleError`) and `getFallbackItems` is returned; the cache is left
unchanged and no event fires. -/
def fetchAndCacheIssues (remote : Except Unit RemoteRepo) (cache : Option CachedIssues)
    (now : Nat) : FetchOutcome :=
  match remote with
  | Except.ok r =>
      let openItems := fetchItems r IssueState.opened
      let closedItems := fetchItems r IssueState.closed
      let allItems := openItems ++ closedItems
      let issues := allItems.filter (fun i => !i.pull_request)
      let pullRequests := allItems.filter (fun i => i.pull_request)
      let cachedData : CachedIssues :=
        { timestamp := now, issues := issues, pullRequests := pullRequests }
      { result := (issues, pullRequests)
        cacheAfter := some cachedData
        events := [(issues, pullRequests)]
        logs := [LogMsg.fetchedAndCached] }
  | Except.error _ =>
      { result := getFallbackItems cache
        cacheAfter := cache
        events := []
        logs := LogMsg.errorFetching :: fallbackLogs cache }

/-- Outcome of one `getCachedOrFetchIssues` query: a cache hit served
directly (with the flag recording whether a background refresh was
triggered), the empty not-yet-authenticated result, or a synchronous
fetch-and-cache. -/
inductive QueryOutcome where
  | served (issues pullRequests : List Item) (backgroundRefresh : Bool)
  | emptyNotAuthenticated
  | syncFetched (outcome : FetchOutcome)
deriving DecidableEq

/-- The `getCachedOrFetchIssues` method: a cached entry younger than
30 minutes is served directly, additionally triggering one asynchronous
background refresh when it is older than 5 minutes; otherwise, if not
authenticated (`octokit` still null) an empty result is returned, else
a synchronous `fetchAndCacheIssues` runs.  Times are milliseconds. -/
def getCachedOrFetchIssues (cache : Option CachedIssues) (now : Nat) (authed : Bool)
    (remote : Except Unit RemoteRepo) : QueryOutcome :=
  match cache with
  | some cachedData =>
      if now - cachedData.timestamp < 30 * 60 * 1000 then
        QueryOutcome.served cachedData.issues cachedData.pullRequests
          (decide (5 * 60 * 1000 < now - cachedData.timestamp))
      else if authed then QueryOutcome.syncFetched (fetchAndCacheIssues remote cache now)
      else QueryOutcome.emptyNotAuthenticated
  | none =>
      if authed then QueryOutcome.syncFetched (fetchAndCacheIssues remote cache now)
      else QueryOutcome.emptyNotAuthenticated

/-- The `getCachedIssues` method: cached entry or empty, never
fetching. -/
def getCachedIssues (cache : Option CachedIssues) : List Item × List Item :=
  match cache with
  | some cd => (cd.issues, cd.pullRequests)
  | none => ([], [])

/-- The `fetchAndUpdateInBackground` method: runs `fetchAndCacheIssues`
and then fires the `onDataUpdated` emitter again with the returned
data.  (`fetchAndCacheIssues` never throws, so its own `catch` is
unreachable.) -/
def fetchAndUpdateInBackground (remote : Except Unit RemoteRepo) (cache : Option CachedIssues)
    (now : Nat) : FetchOutcome :=
  let o := fetchAndCacheIssues remote cache now
  { o with events := o.events ++ [o.result] }

/-- The `refreshInBackground` method driven by the 30-minute timer: a
log line followed by `fetchAndCacheIssues`. -/
def refreshInBackground (remote : Except Unit RemoteRepo) (cache : Option CachedIssues)
    (now : Nat) : FetchOutcome :=
  let o := fetchAndCacheIssues remote cache now
  { o with logs := LogMsg.startingBackgroundRefresh :: o.logs }

/-- The `loadCacheAndFetch` method: returns the cached data immediately
and triggers `fetchAndUpdateInBackground`. -/
def loadCacheAndFetch (remote : Except Unit RemoteRepo) (cache : Option CachedIssues)
    (now : Nat) : (List Item × List Item) × FetchOutcome :=
  (getCachedIssues cache, fetchAndUpdateInBackground remote cache now)

/-- The body rewrite performed by `handleCheckboxChange` before the
remote update: every occurrence of the item's checklist line marker
with the old mark is replaced by the new mark (the `g` regex flag makes
it a global replacement; the label is regex-escaped in the source, so
the pattern is the literal string). -/
def updatedBody (body label : String) (checked : Bool) : String :=
  body.replace ("- [" ++ (if checked then " " else "x") ++ "] " ++ label)
    ("- [" ++ (if checked then "x" else " ") ++ "] " ++ label)

/-- The `handleCheckboxChange` handler of the tree provider for one
checked-state event on the `i`-th child of `parent`, targeting state
`newChecked`.  `remoteOk` is the outcome of the awaited
`updateIssueBody` call.  The handler computes the rewritten body, then
awaits the remote update; only after it succeeds does it assign
`parent.issue.body`, set `item.checked`, and recompute the parent's
progress.  If the await throws, the exception propagates (returned
flag `false`) and none of those mutations run. -/
def handleCheckboxChange (remoteOk : Except Unit Unit) (parent : GHNode) (i : Nat)
    (newChecked : Bool) : GHNode × Bool :=
  match parent.children[i]? with
  | none => (parent, true)
  | some c =>
      if c.data.isCheckbox then
        let newBody := updatedBody parent.data.body c.data.label newChecked
        match remoteOk with
        | Except.error _ => (parent, false)
        | Except.ok _ =>
            let d := { parent.data with body := newBody }
            let children := parent.children.set i
              (GHNode.node { c.data with checked := newChecked } c.children)
            (calculateProgress (GHNode.node d children), true)
      else (parent, true)

/-- Concrete issue body with four checklist items, one checked. -/
def body4 : String := "- [x] a\n- [ ] b\n- [ ] c\n- [ ] d"

/-- Concrete node built from `body4`: four sub-items, one checked. -/
def sampleNode4 : GHNode := mkGHNode "Tasks" "1" "Tasks" body4 (some IssueState.opened) NodeType.issue

/-- Concrete node with two checklist items, used by toggle and
write-back witnesses. -/
def sampleParent : GHNode :=
  mkGHNode "issue" "7" "issue" "- [ ] taskA\n- [x] taskB" (some IssueState.opened) NodeType.issue

/-- The first sub-item of `sampleParent` (index 1 of `children`, after
the synthesized progress bar at index 0). -/
def sampleChild : GHNode := mkSubItemNode "7" 0 false "taskA"

/-- Remote repository with 101 open issues, exceeding one page. -/
def bigRepo : RemoteRepo :=
  { openItems := (List.range 101).map (fun k => { number := k, pull_request := false, state := IssueState.opened })
    closedItems := [] }

/-- The 101st open issue of `bigRepo`. -/
def item100 : Item := { number := 100, pull_request := false, state := IssueState.opened }

/-- Small mixed remote repository: an open issue, an open pull request,
a closed issue. -/
def mixedRepo : RemoteRepo :=
  { openItems := [{ number := 1, pull_request := false, state := IssueState.opened },
                  { number := 2, pull_request := true, state := IssueState.opened }]
    closedItems := [{ number := 3, pull_request := false, state := IssueState.closed }] }

/-- The open non-PR item of `mixedRepo`. -/
def witnessItem : Item := { number := 1, pull_request := false, state := IssueState.opened }

/-- Body whose marker line has no same-line text: the regex `\s*` after
`\]` crosses the newline and `(.+)` captures `foo`, although no single
line matches the per-line checklist pattern. -/
def crossBody : String := "- [x]\nfoo"

/-- Body whose first marker line ends in a space: the greedy `\s*`
crosses the newline and the entire second line becomes the first
match's text, so the scan finds one match although two lines match the
per-line checklist pattern. -/
def crossBody2 : String := "- [x] \n- [ ] b"

end GH

namespace GH

/-! ### Helper lemmas -/

@[simp] theorem GHNode.data_node (d : NodeData) (cs : List GHNode) :
    (GHNode.node d cs).data = d := rfl

@[simp] theorem GHNode.children_node (d : NodeData) (cs : List GHNode) :
    (GHNode.node d cs).children = cs := rfl

theorem GHNode.eta (c : GHNode) : GHNode.node c.data c.children = c := by
  obtain ⟨d, cs⟩ := c; rfl

/-- Parsing an empty body yields no checklist tuples; this justifies
that sub-item nodes (constructed with body `''`) are leaves. -/
theorem parseCheckboxes_empty : parseCheckboxes "" = [] := rfl

/-- Concrete value of the parser on `body4`. -/
theorem parseCheckboxes_body4 :
    parseCheckboxes body4 = [(true, "a"), (false, "b"), (false, "c"), (false, "d")] := rfl

theorem setProgressBarProgress_length (p : ℚ) (l : List GHNode) :
    (setProgressBarProgress p l).length = l.length := by
  induction l with
  | nil => rfl
  | cons c cs ih =>
    obtain ⟨cd, cch⟩ := c
    simp only [setProgressBarProgress, GHNode.data_node]
    split <;> simp only [List.length_cons, ih]

theorem setProgressBarProgress_filter_checked (p : ℚ) (l : List GHNode) :
    ((setProgressBarProgress p l).filter (fun c => c.data.checked)).length
      = (l.filter (fun c => c.data.checked)).length := by
  induction l with
  | nil => rfl
  | cons c cs ih =>
    obtain ⟨cd, cch⟩ := c
    simp only [setProgressBarProgress, GHNode.data_node]
    split
    · cases hc : cd.checked <;> simp [List.filter_cons, hc, ih]
    · cases hc : cd.checked <;> simp [List.filter_cons, hc, ih]

theorem childProgress_setProgressBarProgress (p : ℚ) (l : List GHNode) :
    childProgress (setProgressBarProgress p l) = childProgress l := by
  simp only [childProgress, setProgressBarProgress_length,
    setProgressBarProgress_filter_checked]

theorem setProgressBarProgress_idem (p : ℚ) (l : List GHNode) :
    setProgressBarProgress p (setProgressBarProgress p l) = setProgressBarProgress p l := by
  induction l with
  | nil => rfl
  | cons c cs ih =>
    obtain ⟨cd, cch⟩ := c
    simp only [setProgressBarProgress, GHNode.data_node]
    split
    · next h => simp [setProgressBarProgress, if_pos h]
    · next h => simp [setProgressBarProgress, if_neg h, ih]

theorem setProgressBarProgress_countPB (p : ℚ) (l : List GHNode) :
    (setProgressBarProgress p l).countP (fun c => c.data.ntype == NodeType.progressBar)
      = l.countP (fun c => c.data.ntype == NodeType.progressBar) := by
  induction l with
  | nil => rfl
  | cons c cs ih =>
    obtain ⟨cd, cch⟩ := c
    simp only [setProgressBarProgress, GHNode.data_node]
    split
    · next h => simp [List.countP_cons, h]
    · next h => simp [List.countP_cons, ih]

theorem buildSubItems_length (num : String) (k : Nat) (l : List (Bool × String)) :
    (buildSubItems num k l).length = l.length := by
  induction l generalizing k with
  | nil => rfl
  | cons a l ih =>
    obtain ⟨ck, t⟩ := a
    simp [buildSubItems, ih]

theorem buildSubItems_getElem? (num : String) (k i : Nat) (l : List (Bool × String)) :
    (buildSubItems num k l)[i]? = (l[i]?).map (fun ct => mkSubItemNode num (k + i) ct.1 ct.2) := by
  induction l generalizing k i with
  | nil => simp [buildSubItems]
  | cons a l ih =>
    obtain ⟨ck, t⟩ := a
    cases i with
    | zero => simp [buildSubItems]
    | succ i =>
      have harith : k + 1 + i = k + (i + 1) := by omega
      simp only [buildSubItems, List.getElem?_cons_succ, ih (k + 1) i, harith]

theorem buildSubItems_isCheckbox (num : String) (k : Nat) (l : List (Bool × String)) :
    ∀ c ∈ buildSubItems num k l, c.data.isCheckbox = true := by
  induction l generalizing k with
  | nil => intro c hc; simp [buildSubItems] at hc
  | cons a l ih =>
    obtain ⟨ck, t⟩ := a
    intro c hc
    simp only [buildSubItems, List.mem_cons] at hc
    rcases hc with h | h
    · subst h; rfl
    · exact ih (k + 1) c h

theorem filter_isCheckbox_buildSubItems (num : String) (k : Nat) (l : List (Bool × String)) :
    (buildSubItems num k l).filter (fun c => c.data.isCheckbox) = buildSubItems num k l :=
  List.filter_eq_self.mpr (buildSubItems_isCheckbox num k l)

theorem isLineTerminator_isJsSpace (c : Char) (h : isLineTerminator c = true) :
    isJsSpace c = true := by
  simp only [isLineTerminator, Bool.or_eq_true, decide_eq_true_eq] at h
  rcases h with h | h <;> simp [isJsSpace, h]

theorem dropWhile_head_not {α : Type} {p : α → Bool} {l : List α} {c : α} {cs : List α}
    (h : l.dropWhile p = c :: cs) : p c = false := by
  induction l with
  | nil => simp [List.dropWhile] at h
  | cons a l ih =>
    rw [List.dropWhile_cons] at h
    split at h
    · exact ih h
    · next hpa =>
      obtain ⟨rfl, rfl⟩ : a = c ∧ l = cs := by
        exact ⟨(List.cons.injEq ..).mp h |>.1, (List.cons.injEq ..).mp h |>.2⟩
      exact Bool.eq_false_iff.mpr hpa

theorem lastNonTerminatorSplit_not_terminator (l : List Char) (c : Char) (rest : List Char)
    (h : lastNonTerminatorSplit l = some (c, rest)) : isLineTerminator c = false := by
  induction l generalizing c rest with
  | nil => simp [lastNonTerminatorSplit] at h
  | cons a l ih =>
    cases hl : lastNonTerminatorSplit l with
    | some r =>
      obtain ⟨c1, r1⟩ := r
      simp only [lastNonTerminatorSplit, hl, Option.some.injEq, Prod.mk.injEq] at h
      have hc1 := ih c1 r1 hl
      rwa [h.1] at hc1
    | none =>
      simp only [lastNonTerminatorSplit, hl] at h
      split at h
      · simp at h
      · next ht =>
        simp only [Option.some.injEq, Prod.mk.injEq] at h
        rw [← h.1]
        exact Bool.eq_false_iff.mpr ht

theorem all_takeWhile_not_terminator (l : List Char) :
    (l.takeWhile (fun d => !isLineTerminator d)).all (fun d => !isLineTerminator d) = true := by
  induction l with
  | nil => rfl
  | cons a l ih =>
    rw [List.takeWhile_cons]
    split
    · next ha => simp [List.all_cons, ha, ih]
    · rfl

/-- Captured text of any successful match attempt: nonempty and free of
line terminators (`(.+)` never matches a terminator, and the text
starts at a non-whitespace character or at the single backtracked
whitespace character). -/
theorem tryMatch_text (s : List Char) (ck : Bool) (t : String) (rest : List Char)
    (h : tryMatch s = some ((ck, t), rest)) :
    t.data.isEmpty = false ∧ t.data.all (fun c => !isLineTerminator c) = true := by
  unfold tryMatch at h
  split at h
  · split at h
    · split at h
      · split at h
        · split at h
          · next c rest' hsplit =>
            simp only [Option.some.injEq, Prod.mk.injEq] at h
            obtain ⟨⟨-, rfl⟩, -⟩ := h
            have hc := lastNonTerminatorSplit_not_terminator _ _ _ hsplit
            simp [String.mk, List.all_cons, hc]
          · simp at h
        · next c cs heq =>
          simp only [Option.some.injEq, Prod.mk.injEq] at h
          obtain ⟨⟨-, rfl⟩, -⟩ := h
          have hns : isJsSpace c = false := dropWhile_head_not heq
          have hnt : isLineTerminator c = false := by
            cases hlt : isLineTerminator c
            · rfl
            · exact absurd (isLineTerminator_isJsSpace c hlt) (by simp [hns])
          constructor
          · simp only [String.mk]
            rw [List.takeWhile_cons]
            simp [hnt]
          · exact all_takeWhile_not_terminator (c :: cs)
      · simp at h
    · simp at h
  · simp at h

/-- Every capture pair of the checkbox scan has nonempty,
terminator-free text: each sub-item title comes from within a single
line of the body. -/
theorem scanCheckboxes_text (fuel : Nat) (s : List Char) :
    (scanCheckboxes fuel s).all
      (fun ct => !ct.2.data.isEmpty && ct.2.data.all (fun c => !isLineTerminator c)) = true := by
  induction fuel generalizing s with
  | zero => rfl
  | succ fuel ih =>
    rw [scanCheckboxes]
    cases hm : tryMatch s with
    | some r =>
      obtain ⟨⟨ck, t⟩, rest⟩ := r
      have ht := tryMatch_text s ck t rest hm
      simp [List.all_cons, ih, ht.1, ht.2]
    | none =>
      cases hn : findNextLineStart s with
      | some s1 => simp [hn, ih]
      | none => simp [hn]

/-- Children of a constructed node when the body has no checklist
lines. -/
theorem mkGHNode_children_nil (label number title body : String) (st : Option IssueState)
    (nt : NodeType) (hp : parseCheckboxes body = []) :
    (mkGHNode label number title body st nt).children = [] := by
  simp [mkGHNode, hp, buildSubItems]

/-- Children of a constructed node when the body has checklist lines:
the synthesized progress bar (carrying the computed percentage) followed
by the sub-item children. -/
theorem mkGHNode_children_cons (label number title body : String) (st : Option IssueState)
    (nt : NodeType) (x : Bool × String) (rest : List (Bool × String))
    (hp : parseCheckboxes body = x :: rest) :
    (mkGHNode label number title body st nt).children
      = GHNode.node
          { (mkProgressBarNode number).data with
              progress := childProgress (buildSubItems number 0 (x :: rest)) } []
          :: buildSubItems number 0 (x :: rest) := by
  obtain ⟨ck, t⟩ := x
  simp only [mkGHNode, hp, buildSubItems]
  simp only [List.length_cons, Nat.zero_lt_succ, if_pos]
  simp [calculateProgress, updateProgressBar, mkProgressBarNode, setProgressBarProgress,
    buildSubItems]

theorem list_set_self {α : Type} (l : List α) (i : Nat) (c : α) (h : l[i]? = some c) :
    l.set i c = l := by
  induction l generalizing i with
  | nil => simp at h
  | cons a l ih =>
    cases i with
    | zero =>
      simp only [List.getElem?_cons_zero, Option.some.injEq] at h
      rw [List.set_cons_zero, h]
    | succ i =>
      simp only [List.getElem?_cons_succ] at h
      rw [List.set_cons_succ, ih i h]

theorem all_of_subset {α : Type} (p : α → Bool) (l l' : List α) (sub : l' ⊆ l)
    (h : l.all p = true) : l'.all p = true := by
  simp only [List.all_eq_true] at *
  intro a ha
  exact h a (sub ha)

end GH

namespace GH

/-! ### Claims -/

/-- Claim C1.  The claim states that after `calculateProgress` runs,
`progressPercent` equals `100 * checkedCount / totalCount` counting only
sub-item children and excluding any existing synthesized progress node.
The code violates this: `calculateProgress` counts every element of
`children`, including the progress node once it has been inserted.  At
the failing input (a node with 4 sub-items, 1 checked, whose progress
node exists after construction) a recompute yields `100 * 1 / 5 = 20`,
not the claimed `100 * 1 / 4 = 25`.  The construction-time computation
(progress node not yet inserted) and the zero-sub-item case agree with
the claim. -/
theorem C1_recompute_counts_progress_node :
    sampleNode4.data.progress = 25 ∧
    sampleNode4.children.length = 5 ∧
    (calculateProgress sampleNode4).data.progress = 20 ∧
    (20 : ℚ) ≠ 100 * 1 / 4 ∧
    (mkGHNode "E" "2" "E" "no checklist here" (some IssueState.opened) NodeType.issue).children
      = [] := by
  refine ⟨?_, ?_, ?_, by norm_num, rfl⟩
  · simp only [sampleNode4, mkGHNode, parseCheckboxes_body4, buildSubItems, mkSubItemNode,
      calculateProgress, updateProgressBar, childProgress, GHNode.data, GHNode.children,
      List.filter, List.length, mkProgressBarNode, setProgressBarProgress]
    norm_num
  · simp only [sampleNode4, mkGHNode, parseCheckboxes_body4, buildSubItems, mkSubItemNode,
      calculateProgress, updateProgressBar, childProgress, GHNode.data, GHNode.children,
      List.filter, List.length, mkProgressBarNode, setProgressBarProgress]
  · simp only [sampleNode4, mkGHNode, parseCheckboxes_body4, buildSubItems, mkSubItemNode,
      calculateProgress, updateProgressBar, childProgress, GHNode.data, GHNode.children,
      List.filter, List.length, mkProgressBarNode, setProgressBarProgress]
    norm_num

/-- Claim C2: on any node whose synthesized progress bar already exists
(so that a recompute does not change the set of children, as the claim
assumes) and whose children contain exactly one progress node, running
`calculateProgress` twice gives the same node state as running it once
(hence identical tree shape and identical `progressPercent`), and after
either run the children still contain exactly one progress node — no
duplicate is inserted. -/
theorem C2_recompute_idempotent (n : GHNode) (h : n.data.hasProgressBar = true)
    (h1 : n.children.countP (fun c => c.data.ntype == NodeType.progressBar) = 1) :
    calculateProgress (calculateProgress n) = calculateProgress n ∧
    (calculateProgress n).children.countP (fun c => c.data.ntype == NodeType.progressBar) = 1 ∧
    (calculateProgress (calculateProgress n)).children.countP
        (fun c => c.data.ntype == NodeType.progressBar) = 1 := by
  obtain ⟨d, cs⟩ := n
  have hd : d.hasProgressBar = true := h
  simp only [GHNode.children_node] at h1
  have heq : calculateProgress (calculateProgress (GHNode.node d cs))
      = calculateProgress (GHNode.node d cs) := by
    simp only [calculateProgress, updateProgressBar, GHNode.data_node, GHNode.children_node, hd,
      if_true, childProgress_setProgressBarProgress, setProgressBarProgress_idem]
  have hc1 : (calculateProgress (GHNode.node d cs)).children.countP
      (fun c => c.data.ntype == NodeType.progressBar) = 1 := by
    simp only [calculateProgress, updateProgressBar, GHNode.data_node, GHNode.children_node, hd,
      if_true, setProgressBarProgress_countPB]
    exact h1
  exact ⟨heq, hc1, by rw [heq]; exact hc1⟩

/-- Witness for C2 at the concrete two-item node `sampleParent`. -/
theorem C2_recompute_idempotent_witness :
    sampleParent.data.hasProgressBar = true ∧
    sampleParent.children.countP (fun c => c.data.ntype == NodeType.progressBar) = 1 ∧
    (calculateProgress (calculateProgress sampleParent) = calculateProgress sampleParent ∧
     (calculateProgress sampleParent).children.countP
         (fun c => c.data.ntype == NodeType.progressBar) = 1 ∧
     (calculateProgress (calculateProgress sampleParent)).children.countP
         (fun c => c.data.ntype == NodeType.progressBar) = 1) :=
  ⟨rfl, rfl, C2_recompute_idempotent sampleParent rfl rfl⟩

end GH

namespace GH

/-- Counterexample to claim C3 as stated: a cache entry written at time
0 and queried at `T+10` minutes (600000 ms) IS served, but the query
does trigger a background refresh (the code refreshes whenever the age
exceeds 5 minutes), whereas the claim requires no refresh at 10
minutes. -/
theorem C3_refresh_at_ten_minutes_counterexample :
    getCachedOrFetchIssues (some { timestamp := 0, issues := [], pullRequests := [] })
        (10 * 60 * 1000) true (Except.ok { openItems := [], closedItems := [] })
      = QueryOutcome.served [] [] true ∧
    QueryOutcome.served ([] : List Item) [] true ≠ QueryOutcome.served [] [] false := by
  decide

/-- Claim C3, amended: an entry written at `T` is served with one
asynchronous background refresh when queried at `T+10` and at `T+20`
minutes (no-refresh serving holds only up to a cache age of 5 minutes,
e.g. at `T+4`); at `T+40` minutes the entry is no longer served as
fresh and a synchronous fetch is performed when authentication makes it
possible. -/
theorem C3_cache_freshness_amended (ts : Nat) (issues prs : List Item)
    (remote : Except Unit RemoteRepo) :
    getCachedOrFetchIssues (some { timestamp := ts, issues := issues, pullRequests := prs })
        (ts + 10 * 60 * 1000) true remote = QueryOutcome.served issues prs true ∧
    getCachedOrFetchIssues (some { timestamp := ts, issues := issues, pullRequests := prs })
        (ts + 20 * 60 * 1000) true remote = QueryOutcome.served issues prs true ∧
    getCachedOrFetchIssues (some { timestamp := ts, issues := issues, pullRequests := prs })
        (ts + 40 * 60 * 1000) true remote
      = QueryOutcome.syncFetched (fetchAndCacheIssues remote
          (some { timestamp := ts, issues := issues, pullRequests := prs })
          (ts + 40 * 60 * 1000)) ∧
    getCachedOrFetchIssues (some { timestamp := ts, issues := issues, pullRequests := prs })
        (ts + 4 * 60 * 1000) true remote = QueryOutcome.served issues prs false := by
  have h : ∀ k : Nat, ts + k - ts = k := fun k => by omega
  refine ⟨?_, ?_, ?_, ?_⟩ <;> simp [getCachedOrFetchIssues, h]

/-- Counterexample to claim C5 as stated: a repository with 101 open
items exceeds the single `per_page: 100` request that `fetchItems`
performs, so the cached result does not contain the complete open
collection — the 101st item is fetched by no page. -/
theorem C5_incomplete_fetch_counterexample :
    bigRepo.openItems.length = 101 ∧
    (fetchAndCacheIssues (Except.ok bigRepo) none 0).result.1.length = 100 ∧
    item100 ∈ bigRepo.openItems ∧
    item100 ∉ (fetchAndCacheIssues (Except.ok bigRepo) none 0).result.1 := by
  decide

/-- Claim C5, amended: every fetch operation retrieves a single page of
up to 100 items of the open set and a single page of up to 100 items of
the closed set (one `listForRepo` call per state, no pagination loop),
partitions the combined fetched items into issues versus pull requests
by the discriminating `pull_request` field, writes the result to the
cache with the fetch timestamp, and fires it once on `onDataUpdated`. -/
theorem C5_fetch_single_page_amended (r : RemoteRepo) (cache : Option CachedIssues) (now : Nat) :
    (fetchAndCacheIssues (Except.ok r) cache now).result.1
        = ((r.openItems.take 100) ++ (r.closedItems.take 100)).filter
            (fun i => !i.pull_request) ∧
    (fetchAndCacheIssues (Except.ok r) cache now).result.2
        = ((r.openItems.take 100) ++ (r.closedItems.take 100)).filter
            (fun i => i.pull_request) ∧
    (fetchAndCacheIssues (Except.ok r) cache now).cacheAfter
        = some { timestamp := now,
                 issues := (fetchAndCacheIssues (Except.ok r) cache now).result.1,
                 pullRequests := (fetchAndCacheIssues (Except.ok r) cache now).result.2 } ∧
    (fetchAndCacheIssues (Except.ok r) cache now).events
        = [(fetchAndCacheIssues (Except.ok r) cache now).result] :=
  ⟨rfl, rfl, rfl, rfl⟩

/-- Claim C6.  The claim states that `onDataUpdated` is delivered at
most once per completed refresh.  The code violates this on the
on-demand `loadCacheAndFetch` path: `fetchAndCacheIssues` fires the
emitter on success and `fetchAndUpdateInBackground` then fires it a
second time with the same data, so one completed refresh produces two
deliveries.  The direct (`getCachedOrFetchIssues`-triggered) and
timer-driven (`refreshInBackground`) paths fire exactly once. -/
theorem C6_on_demand_refresh_fires_twice :
    (loadCacheAndFetch (Except.ok mixedRepo) none 0).2.events.length = 2 ∧
    ¬ ((loadCacheAndFetch (Except.ok mixedRepo) none 0).2.events.length ≤ 1) ∧
    (fetchAndCacheIssues (Except.ok mixedRepo) none 0).events.length = 1 ∧
    (refreshInBackground (Except.ok mixedRepo) none 0).events.length = 1 := by
  decide

/-- Claim C7: when the remote fetch fails during a refresh, the error
is caught inside `fetchAndCacheIssues` (logged, never re-thrown — the
embedding is total, returning a `FetchOutcome` on every input) and the
last cached entry is returned however old it is; with no cached entry an
empty issues/pullRequests result is returned.  The same result reaches
the background (`fetchAndUpdateInBackground`) and timer
(`refreshInBackground`) callers. -/
theorem C7_fetch_failure_fallback (cache : Option CachedIssues) (now : Nat) (cd : CachedIssues) :
    (fetchAndCacheIssues (Except.error ()) cache now).result = getFallbackItems cache ∧
    (fetchAndCacheIssues (Except.error ()) cache now).cacheAfter = cache ∧
    LogMsg.errorFetching ∈ (fetchAndCacheIssues (Except.error ()) cache now).logs ∧
    getFallbackItems (none : Option CachedIssues) = ([], []) ∧
    getFallbackItems (some cd) = (cd.issues, cd.pullRequests) ∧
    (fetchAndUpdateInBackground (Except.error ()) cache now).result = getFallbackItems cache ∧
    (refreshInBackground (Except.error ()) cache now).result = getFallbackItems cache := by
  refine ⟨rfl, rfl, ?_, rfl, rfl, rfl, rfl⟩
  exact List.mem_cons_self _ _

end GH

namespace GH

/-- Counterexample to claim C4 as stated.  The claim counts "lines
matching the checklist pattern" (optional leading whitespace, marker,
checkbox, then free text to end of line) and asserts exactly that many
sub-item children; but the source regex is not per-line, because its
`\s*` groups match newlines.  At `crossBody` (`"- [x]\nfoo"`) no line
matches the per-line pattern, yet construction yields one sub-item
(titled by the following line), so "a body with no matching lines
yields zero children" fails.  At `crossBody2` (`"- [x] \n- [ ] b"`) two
lines match the per-line pattern, yet construction yields one sub-item
(whose text is the whole second line), so "exactly N sub-item children"
fails. -/
theorem C4_per_line_counterexample :
    ((specBodyLines crossBody).filter (fun ln => (specChecklistLine ln).isSome)).length = 0 ∧
    ((mkGHNode "X" "9" "X" crossBody (some IssueState.opened) NodeType.issue).children.filter
        (fun c => c.data.isCheckbox)).length = 1 ∧
    parseCheckboxes crossBody = [(true, "foo")] ∧
    ((specBodyLines crossBody2).filter (fun ln => (specChecklistLine ln).isSome)).length = 2 ∧
    ((mkGHNode "Y" "9" "Y" crossBody2 (some IssueState.opened) NodeType.issue).children.filter
        (fun c => c.data.isCheckbox)).length = 1 ∧
    parseCheckboxes crossBody2 = [(true, "- [ ] b")] ∧
    (1 : Nat) ≠ 0 ∧ (1 : Nat) ≠ 2 := by
  decide

/-- Claim C4, amended: constructing a node from a body yields exactly
one sub-item child per match of the checkbox regex scan, in scan order
(the regex's whitespace groups match newlines, so a match's text can
come from a later line than its marker; each captured text is itself
nonempty and free of line terminators).  The sub-item children of the
constructed node are exactly `buildSubItems` over the scan's capture
pairs; their count is the number of matches; the full `children` list
is empty when the scan finds nothing (no error is possible — the scan
is total), and otherwise additionally holds the synthesized progress
node; the `i`-th (0-based) sub-item is `mkSubItemNode` of the `i`-th
capture, whose composite number is `{parentNumber}.{i+1}`, whose title
and label are the captured text, whose body is empty, whose state is
closed exactly when checked, and whose checked flag is copied from the
marker. -/
theorem C4_scan_children_amended (label number title body : String) (st : Option IssueState)
    (nt : NodeType) (i : Nat) (ck : Bool) (t : String) :
    ((mkGHNode label number title body st nt).children.filter (fun c => c.data.isCheckbox))
        = buildSubItems number 0 (parseCheckboxes body) ∧
    ((mkGHNode label number title body st nt).children.filter
        (fun c => c.data.isCheckbox)).length = (parseCheckboxes body).length ∧
    (mkGHNode label number title body st nt).children.length
        = (if (parseCheckboxes body).length = 0 then 0 else (parseCheckboxes body).length + 1) ∧
    ((mkGHNode label number title body st nt).children.filter (fun c => c.data.isCheckbox))[i]?
        = ((parseCheckboxes body)[i]?).map (fun ct => mkSubItemNode number i ct.1 ct.2) ∧
    (parseCheckboxes body).all
        (fun ct => !ct.2.data.isEmpty && ct.2.data.all (fun c => !isLineTerminator c)) = true ∧
    (mkSubItemNode number i ck t).data.number = number ++ "." ++ toString (i + 1) ∧
    (mkSubItemNode number i ck t).data.title = t ∧
    (mkSubItemNode number i ck t).data.label = t ∧
    (mkSubItemNode number i ck t).data.body = "" ∧
    (mkSubItemNode number i ck t).data.state
        = some (if ck then IssueState.closed else IssueState.opened) ∧
    (mkSubItemNode number i ck t).data.checked = ck ∧
    (mkSubItemNode number i ck t).data.isCheckbox = true ∧
    (mkSubItemNode number i ck t).children = [] := by
  have hfil : (mkGHNode label number title body st nt).children.filter
      (fun c => c.data.isCheckbox) = buildSubItems number 0 (parseCheckboxes body) := by
    cases hp : parseCheckboxes body with
    | nil => simp [mkGHNode_children_nil label number title body st nt hp, buildSubItems]
    | cons x rest =>
      rw [mkGHNode_children_cons label number title body st nt x rest hp]
      simp only [List.filter_cons, GHNode.data_node]
      rw [filter_isCheckbox_buildSubItems]
      simp [mkProgressBarNode]
  refine ⟨hfil, ?_, ?_, ?_, ?_, rfl, rfl, rfl, rfl, rfl, rfl, rfl, rfl⟩
  · rw [hfil, buildSubItems_length]
  · cases hp : parseCheckboxes body with
    | nil => simp [mkGHNode_children_nil label number title body st nt hp]
    | cons x rest =>
      rw [mkGHNode_children_cons label number title body st nt x rest hp]
      simp [buildSubItems_length]
  · rw [hfil, buildSubItems_getElem?]
    simp
  · exact scanCheckboxes_text (body.data.length + 1) body.data

/-- Claim C8: toggling a node with `isCheckbox` true flips its checked
flag and requests the recompute of the parent's progress (performed
over the children with the flipped child in place), while toggling a
node with `isCheckbox` false is a no-op that leaves the node and the
whole tree unchanged; no error is raised in either case (the embedding
is total). -/
theorem C8_toggle_contract (parent : GHNode) (i : Nat) (c : GHNode)
    (h : parent.children[i]? = some c) :
    toggleCheckbox c.data
        = (if c.data.isCheckbox then ({ c.data with checked := !c.data.checked }, true)
           else (c.data, false)) ∧
    toggleChildAt parent i
        = (if c.data.isCheckbox then
             calculateProgress (GHNode.node parent.data
               (parent.children.set i
                 (GHNode.node { c.data with checked := !c.data.checked } c.children)))
           else parent) := by
  refine ⟨rfl, ?_⟩
  simp only [toggleChildAt, h]
  cases hck : c.data.isCheckbox
  · simp only [toggleCheckbox, hck, Bool.false_eq_true, if_false]
    rw [GHNode.eta c, list_set_self parent.children i c h, GHNode.eta parent]
  · simp only [toggleCheckbox, hck, if_true]

/-- Witness for C8 at the sub-item child (index 1, after the progress
bar) of the concrete node `sampleParent`. -/
theorem C8_toggle_contract_witness :
    sampleParent.children[1]? = some sampleChild ∧
    (toggleCheckbox sampleChild.data
        = (if sampleChild.data.isCheckbox then
             ({ sampleChild.data with checked := !sampleChild.data.checked }, true)
           else (sampleChild.data, false)) ∧
     toggleChildAt sampleParent 1
        = (if sampleChild.data.isCheckbox then
             calculateProgress (GHNode.node sampleParent.data
               (sampleParent.children.set 1
                 (GHNode.node { sampleChild.data with checked := !sampleChild.data.checked }
                   sampleChild.children)))
           else sampleParent)) :=
  ⟨rfl, C8_toggle_contract sampleParent 1 sampleChild rfl⟩

/-- Claim C9: when the awaited remote body update throws during a
checkbox write-back, `handleCheckboxChange` propagates the failure
(flag `false`) and returns the parent tree completely unchanged — the
parent's body text, the item's checked flag and the parent's progress
all retain their pre-toggle values, because those mutations are only
executed after the awaited remote update succeeds. -/
theorem C9_no_mutation_on_error (parent : GHNode) (i : Nat) (c : GHNode) (newChecked : Bool)
    (h : parent.children[i]? = some c) (hck : c.data.isCheckbox = true) :
    handleCheckboxChange (Except.error ()) parent i newChecked = (parent, false) := by
  simp [handleCheckboxChange, h, hck]

/-- Witness for C9 at the sub-item child of `sampleParent`. -/
theorem C9_no_mutation_on_error_witness :
    sampleParent.children[1]? = some sampleChild ∧
    sampleChild.data.isCheckbox = true ∧
    handleCheckboxChange (Except.error ()) sampleParent 1 true = (sampleParent, false) :=
  ⟨rfl, rfl, C9_no_mutation_on_error sampleParent 1 sampleChild true rfl rfl⟩

/-- Claim C10: after a successful fetch against a remote whose open
(resp. closed) listing returns only open (resp. closed) items, the
cached issues and pull-requests sequences partition the fetched items
by the `pull_request` field — each sequence is the filter of the
fetched items by the corresponding polarity, an arbitrary item belongs
to a sequence exactly when it was fetched and has that polarity, and no
item belongs to both — and each sequence is the items fetched with
state open (all of state open) followed by the items fetched with state
closed (all of state closed). -/
theorem C10_partition_and_order (r : RemoteRepo) (cache : Option CachedIssues) (now : Nat)
    (x : Item)
    (hO : r.openItems.all (fun it => it.state == IssueState.opened) = true)
    (hC : r.closedItems.all (fun it => it.state == IssueState.closed) = true) :
    (fetchAndCacheIssues (Except.ok r) cache now).result.1
        = (fetchItems r IssueState.opened).filter (fun it => !it.pull_request)
          ++ (fetchItems r IssueState.closed).filter (fun it => !it.pull_request) ∧
    (fetchAndCacheIssues (Except.ok r) cache now).result.2
        = (fetchItems r IssueState.opened).filter (fun it => it.pull_request)
          ++ (fetchItems r IssueState.closed).filter (fun it => it.pull_request) ∧
    ((fetchItems r IssueState.opened).filter (fun it => !it.pull_request)).all
        (fun it => it.state == IssueState.opened) = true ∧
    ((fetchItems r IssueState.closed).filter (fun it => !it.pull_request)).all
        (fun it => it.state == IssueState.closed) = true ∧
    ((fetchItems r IssueState.opened).filter (fun it => it.pull_request)).all
        (fun it => it.state == IssueState.opened) = true ∧
    ((fetchItems r IssueState.closed).filter (fun it => it.pull_request)).all
        (fun it => it.state == IssueState.closed) = true ∧
    (x ∈ (fetchAndCacheIssues (Except.ok r) cache now).result.1
        ↔ x ∈ fetchItems r IssueState.opened ++ fetchItems r IssueState.closed
            ∧ x.pull_request = false) ∧
    (x ∈ (fetchAndCacheIssues (Except.ok r) cache now).result.2
        ↔ x ∈ fetchItems r IssueState.opened ++ fetchItems r IssueState.closed
            ∧ x.pull_request = true) ∧
    ¬ (x ∈ (fetchAndCacheIssues (Except.ok r) cache now).result.1
        ∧ x ∈ (fetchAndCacheIssues (Except.ok r) cache now).result.2) := by
  have hsubO : fetchItems r IssueState.opened ⊆ r.openItems := by
    simp only [fetchItems, listForRepo]
    exact List.take_subset 100 r.openItems
  have hsubC : fetchItems r IssueState.closed ⊆ r.closedItems := by
    simp only [fetchItems, listForRepo]
    exact List.take_subset 100 r.closedItems
  have hallO := all_of_subset _ _ _ hsubO hO
  have hallC := all_of_subset _ _ _ hsubC hC
  refine ⟨?_, ?_, ?_, ?_, ?_, ?_, ?_, ?_, ?_⟩
  · simp [fetchAndCacheIssues, List.filter_append]
  · simp [fetchAndCacheIssues, List.filter_append]
  · exact all_of_subset _ _ _ (List.Sublist.subset (List.filter_sublist _)) hallO
  · exact all_of_subset _ _ _ (List.Sublist.subset (List.filter_sublist _)) hallC
  · exact all_of_subset _ _ _ (List.Sublist.subset (List.filter_sublist _)) hallO
  · exact all_of_subset _ _ _ (List.Sublist.subset (List.filter_sublist _)) hallC
  · simp [fetchAndCacheIssues, List.mem_filter, or_and_right]
  · simp [fetchAndCacheIssues, List.mem_filter, or_and_right]
  · rintro ⟨h1, h2⟩
    simp only [fetchAndCacheIssues, List.mem_filter, Bool.not_eq_true'] at h1 h2
    rw [h1.2] at h2
    exact absurd h2.2 (by simp)

end GH

namespace GH

/-- Witness for C10 at the concrete repository `mixedRepo` and its open
issue `witnessItem`. -/
theorem C10_partition_and_order_witness :
    mixedRepo.openItems.all (fun it => it.state == IssueState.opened) = true ∧
    mixedRepo.closedItems.all (fun it => it.state == IssueState.closed) = true ∧
    ((fetchAndCacheIssues (Except.ok mixedRepo) none 0).result.1
        = (fetchItems mixedRepo IssueState.opened).filter (fun it => !it.pull_request)
          ++ (fetchItems mixedRepo IssueState.closed).filter (fun it => !it.pull_request) ∧
     (fetchAndCacheIssues (Except.ok mixedRepo) none 0).result.2
        = (fetchItems mixedRepo IssueState.opened).filter (fun it => it.pull_request)
          ++ (fetchItems mixedRepo IssueState.closed).filter (fun it => it.pull_request) ∧
     ((fetchItems mixedRepo IssueState.opened).filter (fun it => !it.pull_request)).all
        (fun it => it.state == IssueState.opened) = true ∧
     ((fetchItems mixedRepo IssueState.closed).filter (fun it => !it.pull_request)).all
        (fun it => it.state == IssueState.closed) = true ∧
     ((fetchItems mixedRepo IssueState.opened).filter (fun it => it.pull_request)).all
        (fun it => it.state == IssueState.opened) = true ∧
     ((fetchItems mixedRepo IssueState.closed).filter (fun it => it.pull_request)).all
        (fun it => it.state == IssueState.closed) = true ∧
     (witnessItem ∈ (fetchAndCacheIssues (Except.ok mixedRepo) none 0).result.1
        ↔ witnessItem ∈ fetchItems mixedRepo IssueState.opened
            ++ fetchItems mixedRepo IssueState.closed
            ∧ witnessItem.pull_request = false) ∧
     (witnessItem ∈ (fetchAndCacheIssues (Except.ok mixedRepo) none 0).result.2
        ↔ witnessItem ∈ fetchItems mixedRepo IssueState.opened
            ++ fetchItems mixedRepo IssueState.closed
            ∧ witnessItem.pull_request = true) ∧
     ¬ (witnessItem ∈ (fetchAndCacheIssues (Except.ok mixedRepo) none 0).result.1
        ∧ witnessItem ∈ (fetchAndCacheIssues (Except.ok mixedRepo) none 0).result.2)) :=
  ⟨by decide, by decide,
    C10_partition_and_order mixedRepo none 0 witnessItem (by decide) (by decide)⟩

end GH
